import Mathlib

/-!
# Tripledoc: shallow embedding and verification

A shallow embedding of the tripledoc library (an in-memory triple document
model over RDF statements) together with proofs about its literal codec,
query getters, subject mutation buffers and the document save protocol.

The repository contains two generations of the document module:
* the rdflib-based generation (`src/subject.ts`, `src/store.ts` and the
  document file `src/unnamed/part_000`), embedded in namespace `V1`;
* the N3-based generation (`src/index.ts` and the document file
  `src/unnamed/part_001`), embedded in namespace `V3`.

RDF terms and statements are shared between the two embeddings. Statement
equality in both backing libraries (rdflib `Statement` equality and N3
`Quad.equals`) is structural, term by term, which `DecidableEq` mirrors.
-/

/-- An RDF term: a named node (IRI), a typed or language-tagged literal, or a
blank node.  rdflib and N3 literals carry a lexical value, a language tag
(empty when absent) and a datatype IRI. -/
inductive Term where
  | namedNode (iri : String)
  | literal (value : String) (language : String) (datatypeIri : String)
  | blankNode (id : String)
deriving DecidableEq, Repr

/-- A statement/quad: subject, predicate, object and the graph (`why` in
rdflib; the owning document's IRI in tripledoc). -/
structure Stmt where
  subject : Term
  predicate : Term
  object : Term
  why : Term
deriving DecidableEq, Repr

def xsdString : String := "http://www.w3.org/2001/XMLSchema#string"
def xsdInteger : String := "http://www.w3.org/2001/XMLSchema#integer"
def xsdDecimal : String := "http://www.w3.org/2001/XMLSchema#decimal"
def xsdDateTime : String := "http://www.w3.org/2001/XMLSchema#dateTime"
def rdfType : String := "http://www.w3.org/1999/02/22-rdf-syntax-ns#type"

/-! ## JavaScript number and string primitives

The codec in `src/subject.ts` goes through JavaScript strings
(`Number.prototype.toString`, `parseInt`, `parseFloat`) and the rdflib
`Literal.fromNumber` / `Literal.fromDate` constructors.  We model JavaScript
numbers that print in plain (non-exponent) decimal notation as an exact
scaled decimal `m / 10^k`; floating-point rounding is out of scope of the
shallow embedding (the spec's round-trip law is itself stated only "to float
precision"). -/

/-- A JavaScript number in plain decimal notation: the value `m / 10 ^ k`.
`k = 0` is an integer-printing number.  A number is in canonical (JS) form
when `k = 0` or `m` is not divisible by 10, which is exactly when
`numToString` below agrees with `Number.prototype.toString`. -/
structure JSNum where
  m : Int
  k : Nat
deriving DecidableEq, Repr

/-- Big-endian decimal digit characters of `n`, with `fuel` bounding the
recursion depth (callers pass `fuel = n`, which always suffices). -/
def natCharsAux (fuel : Nat) (n : Nat) : List Char :=
  match fuel with
  | 0 => []
  | f + 1 => if n = 0 then [] else natCharsAux f (n / 10) ++ [Nat.digitChar (n % 10)]

/-- Decimal digit characters of a natural number, as produced by
JavaScript's `Number.prototype.toString` on a nonnegative integer. -/
def natChars (n : Nat) : List Char :=
  if n = 0 then ['0'] else natCharsAux n n

/-- Decimal digit characters of an integer (JavaScript
`Number.prototype.toString` on an integer-valued number). -/
def intChars (m : Int) : List Char :=
  if m < 0 then '-' :: natChars m.natAbs else natChars m.toNat

/-- Numeric value of a big-endian list of decimal digit characters. -/
def digitsToNat (l : List Char) : Nat :=
  l.foldl (fun acc c => 10 * acc + (c.toNat - 48)) 0

/-- Strip a leading `+`/`-` sign, returning the sign as `1` or `-1`. -/
def readSign (l : List Char) : Int × List Char :=
  match l with
  | [] => (1, [])
  | c :: r => if c = '-' then (-1, r) else if c = '+' then (1, r) else (1, c :: r)

/-- JavaScript `parseInt(s, 10)`: skip leading whitespace, read an optional
sign and then the longest prefix of decimal digits; `none` models `NaN`
(no digits found).  Trailing garbage is ignored, as in JS.  (The `0x` hex
prefix of `parseInt` is not modelled; no tripledoc lexical form uses it.) -/
def parseIntJS (l : List Char) : Option Int :=
  let l1 := l.dropWhile (·.isWhitespace)
  let (sign, l2) := readSign l1
  let digits := l2.takeWhile (·.isDigit)
  if digits.isEmpty then none else some (sign * (digitsToNat digits : Int))

/-- Normalise a scaled decimal `m / 10^k` by removing trailing zero digits,
modelling that a JavaScript number does not remember trailing zeros
(`parseFloat("4.20") === 4.2`, `parseFloat("4.0") === 4`). -/
def normNum (m : Int) (k : Nat) : JSNum :=
  match k with
  | 0 => ⟨m, 0⟩
  | k' + 1 => if m % 10 = 0 then normNum (m / 10) k' else ⟨m, k' + 1⟩

/-- JavaScript `parseFloat`: skip whitespace, optional sign, integer digits,
optional fraction digits after a decimal point; `none` models `NaN`.
(Exponent notation is accepted by JS `parseFloat` but never produced by the
plain-notation lexical forms modelled here, so it is not modelled.) -/
def parseFloatJS (l : List Char) : Option JSNum :=
  let l1 := l.dropWhile (·.isWhitespace)
  let (sign, l2) := readSign l1
  let intDigits := l2.takeWhile (·.isDigit)
  let rest := l2.dropWhile (·.isDigit)
  let fracDigits := match rest with
    | '.' :: r => r.takeWhile (·.isDigit)
    | _ => []
  if intDigits.isEmpty && fracDigits.isEmpty then none
  else some (normNum (sign * (digitsToNat (intDigits ++ fracDigits) : Int)) fracDigits.length)

/-- Model of `Number.prototype.toString` for a plain-notation number `m / 10^k`:
for `k = 0` the integer digits; otherwise the digits of `|m|` left-padded
with zeros to at least `k + 1` characters, with a decimal point inserted
`k` places from the right and a leading minus sign for negative numbers. -/
def numToString (v : JSNum) : List Char :=
  match v.k with
  | 0 => intChars v.m
  | k' + 1 =>
    let ds := natChars v.m.natAbs
    let padded := List.replicate (k' + 1 + 1 - ds.length) '0' ++ ds
    let intPart := padded.take (padded.length - (k' + 1))
    let fracPart := padded.drop (padded.length - (k' + 1))
    (if v.m < 0 then ['-'] else []) ++ intPart ++ '.' :: fracPart

/-! ### Digit lemmas -/

theorem digitChar_toNat {d : Nat} (h : d < 10) : (Nat.digitChar d).toNat = 48 + d := by
  interval_cases d <;> rfl

theorem digitChar_isDigit {d : Nat} (h : d < 10) : (Nat.digitChar d).isDigit = true := by
  interval_cases d <;> rfl

theorem digitsToNat_append_digit (l : List Char) (c : Char) :
    digitsToNat (l ++ [c]) = 10 * digitsToNat l + (c.toNat - 48) := by
  simp [digitsToNat, List.foldl_append]

theorem natCharsAux_zero (f : Nat) : natCharsAux f 0 = [] := by
  cases f <;> simp [natCharsAux]

theorem natCharsAux_succ (f n : Nat) (hn : n ≠ 0) :
    natCharsAux (f + 1) n = natCharsAux f (n / 10) ++ [Nat.digitChar (n % 10)] := by
  simp [natCharsAux, hn]

theorem natCharsAux_spec : ∀ f n, n ≤ f →
    digitsToNat (natCharsAux f n) = n ∧ ∀ c ∈ natCharsAux f n, c.isDigit = true := by
  intro f
  induction f with
  | zero =>
    intro n hn
    have : n = 0 := Nat.le_zero.mp hn
    subst this
    simp [natCharsAux, digitsToNat]
  | succ f ih =>
    intro n hn
    by_cases hz : n = 0
    · subst hz; simp [natCharsAux, digitsToNat]
    · rw [natCharsAux_succ f n hz]
      have hdiv : n / 10 ≤ f := by
        have h1 : n / 10 < n := Nat.div_lt_self (Nat.pos_of_ne_zero hz) (by omega)
        omega
      obtain ⟨ihv, ihd⟩ := ih (n / 10) hdiv
      constructor
      · rw [digitsToNat_append_digit, ihv, digitChar_toNat (Nat.mod_lt n (by omega))]
        omega
      · intro c hc
        rcases List.mem_append.mp hc with h | h
        · exact ihd c h
        · simp at h
          subst h
          exact digitChar_isDigit (Nat.mod_lt n (by omega))

theorem digitsToNat_natChars (n : Nat) : digitsToNat (natChars n) = n := by
  by_cases hz : n = 0
  · subst hz; simp [natChars, digitsToNat]
  · simp only [natChars, hz, if_false]
    exact (natCharsAux_spec n n le_rfl).1

theorem natChars_isDigit (n : Nat) : ∀ c ∈ natChars n, c.isDigit = true := by
  by_cases hz : n = 0
  · subst hz; intro c hc; simp [natChars] at hc; subst hc; rfl
  · simp only [natChars, hz, if_false]
    exact (natCharsAux_spec n n le_rfl).2

theorem natChars_ne_nil (n : Nat) : natChars n ≠ [] := by
  by_cases hz : n = 0
  · subst hz; simp [natChars]
  · simp only [natChars, hz, if_false]
    obtain ⟨f, hf⟩ : ∃ f, n = f + 1 := ⟨n - 1, by omega⟩
    rw [hf, natCharsAux_succ f (f + 1) (by omega)]
    simp

theorem takeWhile_all {p : Char → Bool} :
    ∀ l : List Char, (∀ c ∈ l, p c = true) → l.takeWhile p = l := by
  intro l
  induction l with
  | nil => intro _; rfl
  | cons a t ih =>
    intro h
    have ha := h a (by simp)
    rw [List.takeWhile_cons, if_pos ha, ih (fun c hc => h c (List.mem_cons_of_mem a hc))]

theorem dropWhile_all {p : Char → Bool} :
    ∀ l : List Char, (∀ c ∈ l, p c = true) → l.dropWhile p = [] := by
  intro l
  induction l with
  | nil => intro _; rfl
  | cons a t ih =>
    intro h
    have ha := h a (by simp)
    rw [List.dropWhile_cons, if_pos ha, ih (fun c hc => h c (List.mem_cons_of_mem a hc))]

theorem takeWhile_append_stop {p : Char → Bool} (r : List Char) (c : Char)
    (hc : p c = false) :
    ∀ l : List Char, (∀ x ∈ l, p x = true) → (l ++ c :: r).takeWhile p = l := by
  intro l
  induction l with
  | nil => intro _; simp [List.takeWhile_cons, hc]
  | cons a t ih =>
    intro h
    have ha := h a (by simp)
    rw [List.cons_append, List.takeWhile_cons, if_pos ha,
      ih (fun x hx => h x (List.mem_cons_of_mem a hx))]

theorem dropWhile_append_stop {p : Char → Bool} (r : List Char) (c : Char)
    (hc : p c = false) :
    ∀ l : List Char, (∀ x ∈ l, p x = true) → (l ++ c :: r).dropWhile p = c :: r := by
  intro l
  induction l with
  | nil => intro _; simp [List.dropWhile_cons, hc]
  | cons a t ih =>
    intro h
    have ha := h a (by simp)
    rw [List.cons_append, List.dropWhile_cons, if_pos ha]
    exact ih (fun x hx => h x (List.mem_cons_of_mem a hx))

theorem isDigit_not_whitespace {c : Char} (h : c.isDigit = true) : c.isWhitespace = false := by
  rcases Bool.eq_false_or_eq_true c.isWhitespace with hw | hw
  · exfalso
    have hcase : c = ' ' ∨ c = '\t' ∨ c = '\r' ∨ c = '\n' := by
      simpa [Char.isWhitespace, or_assoc] using hw
    rcases hcase with rfl | rfl | rfl | rfl <;> simp [Char.isDigit] at h
  · exact hw

theorem readSign_digit {a : Char} (t : List Char) (ha : a.isDigit = true) :
    readSign (a :: t) = (1, a :: t) := by
  have h1 : a ≠ '-' := by rintro rfl; simp [Char.isDigit] at ha
  have h2 : a ≠ '+' := by rintro rfl; simp [Char.isDigit] at ha
  simp [readSign, h1, h2]

theorem parseIntJS_digits (l : List Char) (h : ∀ c ∈ l, c.isDigit = true) (hne : l ≠ []) :
    parseIntJS l = some (digitsToNat l : Int) := by
  have hws : l.dropWhile (·.isWhitespace) = l := by
    cases l with
    | nil => rfl
    | cons a t =>
      have := isDigit_not_whitespace (h a (by simp))
      simp [List.dropWhile_cons, this]
  have hsign : readSign l = (1, l) := by
    cases l with
    | nil => simp at hne
    | cons a t => exact readSign_digit t (h a (by simp))
  simp only [parseIntJS, hws, hsign, takeWhile_all l h]
  simp [List.isEmpty_iff, hne]

theorem parseIntJS_natChars (n : Nat) : parseIntJS (natChars n) = some (n : Int) := by
  rw [parseIntJS_digits (natChars n) (natChars_isDigit n) (natChars_ne_nil n),
    digitsToNat_natChars]

theorem parseIntJS_cons_neg (l : List Char) (h : ∀ c ∈ l, c.isDigit = true) (hne : l ≠ []) :
    parseIntJS ('-' :: l) = some (-(digitsToNat l : Int)) := by
  have hws : ('-' :: l).dropWhile (·.isWhitespace) = '-' :: l := by
    have hmw : ('-' : Char).isWhitespace = false := by decide
    simp [List.dropWhile_cons, hmw]
  have hsign : readSign ('-' :: l) = (-1, l) := by simp [readSign]
  simp only [parseIntJS, hws, hsign, takeWhile_all l h]
  simp [List.isEmpty_iff, hne]

theorem parseIntJS_intChars (m : Int) : parseIntJS (intChars m) = some m := by
  by_cases hm : m < 0
  · simp only [intChars, hm, if_true]
    rw [parseIntJS_cons_neg (natChars m.natAbs) (natChars_isDigit _) (natChars_ne_nil _),
      digitsToNat_natChars]
    congr 1
    omega
  · simp only [intChars, hm, if_false]
    rw [parseIntJS_natChars]
    congr 1
    omega

/-! ## The literal codec of `src/subject.ts`

`asLiteral` (encode) and `fromLiteral` (decode) from `src/subject.ts`,
together with the rdflib constructors `Literal.fromNumber` and
`Literal.fromDate` they call.  A JavaScript `Date` is observed by this code
only through its UTC civil components (`getUTCFullYear` … `setUTCSeconds`),
so it is embedded as that civil record.  JS `Date` field normalisation of
out-of-range component values is not modelled; the round-trip theorems
carry range hypotheses under which no normalisation occurs. -/

/-- A JavaScript `Date` as observed through its UTC civil components. -/
structure CivilDate where
  utcFullYear : Int
  utcMonth : Int
  utcDate : Int
  utcHours : Int
  utcMinutes : Int
  utcSeconds : Int
  utcMilliseconds : Int
deriving DecidableEq, Repr

/-- The native values accepted by `addLiteral` (TS type
`LiteralTypes = string | number | Date`); plain-notation numbers are split
off as `JSNum` and dates as `CivilDate`. -/
inductive LiteralTypes where
  | str (s : String)
  | num (v : JSNum)
  | date (d : CivilDate)
deriving DecidableEq, Repr

/-- The possible results of `fromLiteral`.  In TypeScript the function
returns `LiteralTypes`, but `parseInt`/`parseFloat` can produce `NaN` and
the `Date` setters can produce an invalid date, so the embedding makes
those outcomes explicit constructors. -/
inductive DecodedValue where
  | str (s : String)
  | num (v : JSNum)
  | nan
  | date (d : CivilDate)
  | invalidDate
deriving DecidableEq, Repr

/-- rdflib `Literal.fromNumber`: stringify the number; datatype is
`xsd:integer` unless the string contains a decimal point or an exponent
marker, in which case it is `xsd:decimal`. -/
def fromNumber (v : JSNum) : Term :=
  let s := numToString v
  Term.literal (String.mk s) ""
    (if s.any (fun c => c = '.') || s.any (fun c => c = 'e') then xsdDecimal else xsdInteger)

/-- The two-digit field formatter inside rdflib `Literal.fromDate`:
`('' + (100 + x)).slice(1, 3)`. -/
def twoDigitChars (x : Int) : List Char :=
  ((intChars (100 + x)).drop 1).take 2

/-- The fixed-layout `YYYY-MM-DDTHH:MM:SSZ` characters produced by rdflib
`Literal.fromDate` (year via `getUTCFullYear().toString()`, other fields
two-digit). -/
def dateChars (d : CivilDate) : List Char :=
  intChars d.utcFullYear ++ '-' :: twoDigitChars (d.utcMonth + 1)
    ++ '-' :: twoDigitChars d.utcDate ++ 'T' :: twoDigitChars d.utcHours
    ++ ':' :: twoDigitChars d.utcMinutes ++ ':' :: twoDigitChars d.utcSeconds ++ ['Z']

/-- rdflib `Literal.fromDate`. -/
def fromDate (d : CivilDate) : Term :=
  Term.literal (String.mk (dateChars d)) "" xsdDateTime

/-- Encoder `asLiteral` from `src/subject.ts`: a `Date` goes through
`Literal.fromDate`, a number through `Literal.fromNumber`, and a string
through `new Literal(value, undefined, undefined)` (datatype defaults to
`xsd:string` in rdflib). -/
def asLiteral : LiteralTypes → Term
  | .date d => fromDate d
  | .num v => fromNumber v
  | .str s => Term.literal s "" xsdString

/-- JavaScript `String.prototype.substring`: negative indices clamp to 0,
indices beyond the length clamp to the length, and the two indices are
swapped when given in descending order. -/
def jsSubstring (l : List Char) (a b : Int) : List Char :=
  let n : Int := l.length
  let a1 := min (max a 0) n
  let b1 := min (max b 0) n
  let lo := min a1 b1
  let hi := max a1 b1
  (l.drop lo.toNat).take (hi - lo).toNat

/-- JavaScript `String.prototype.indexOf` for a single character: the index
of the first occurrence, `-1` when absent. -/
def jsIndexOf (l : List Char) (c : Char) : Int :=
  match l with
  | [] => -1
  | a :: r =>
    if a = c then 0
    else
      let i := jsIndexOf r c
      if i < 0 then -1 else i + 1

/-- Decoder `fromLiteral` from `src/subject.ts`, on the literal's lexical value and
datatype IRI (the language tag is never inspected).  The dateTime branch
reads the six fixed-position fields with `parseInt` and rebuilds a date
from them; the integer and decimal branches parse with
`parseInt(..., 10)` / `parseFloat`; every other datatype falls through to
returning the lexical value verbatim. -/
def fromLiteral (value : String) (datatypeIri : String) : DecodedValue :=
  let l := value.toList
  if datatypeIri = xsdDateTime then
    match parseIntJS (jsSubstring l 0 4), parseIntJS (jsSubstring l 5 7),
        parseIntJS (jsSubstring l 8 10), parseIntJS (jsSubstring l 11 13),
        parseIntJS (jsSubstring l 14 16), parseIntJS (jsSubstring l 17 (jsIndexOf l 'Z')) with
    | some y, some mo, some dd, some hh, some mi, some ss =>
      DecodedValue.date ⟨y, mo - 1, dd, hh, mi, ss, 0⟩
    | _, _, _, _, _, _ => DecodedValue.invalidDate
  else if datatypeIri = xsdInteger then
    match parseIntJS l with
    | some n => DecodedValue.num ⟨n, 0⟩
    | none => DecodedValue.nan
  else if datatypeIri = xsdDecimal then
    match parseFloatJS l with
    | some v => DecodedValue.num v
    | none => DecodedValue.nan
  else DecodedValue.str value

/-- Decode a statement object: `fromLiteral` on literal terms, nothing on
node references and blank nodes (on which the TS code never calls
`fromLiteral`). -/
def decodeObject (t : Term) : Option DecodedValue :=
  match t with
  | .literal v _ dt => some (fromLiteral v dt)
  | _ => none

/-! ### Number codec round trip -/

theorem isDigit_ne_dot {c : Char} (h : c.isDigit = true) : c ≠ '.' := by
  rintro rfl; exact absurd h (by decide)

theorem isDigit_ne_e {c : Char} (h : c.isDigit = true) : c ≠ 'e' := by
  rintro rfl; exact absurd h (by decide)

theorem isDigit_ne_Z {c : Char} (h : c.isDigit = true) : c ≠ 'Z' := by
  rintro rfl; exact absurd h (by decide)

theorem intChars_mem (m : Int) : ∀ c ∈ intChars m, c = '-' ∨ c.isDigit = true := by
  intro c hc
  by_cases hm : m < 0
  · simp only [intChars, hm, if_true] at hc
    rcases List.mem_cons.mp hc with h | h
    · exact Or.inl h
    · exact Or.inr (natChars_isDigit _ c h)
  · simp only [intChars, hm, if_false] at hc
    exact Or.inr (natChars_isDigit _ c hc)

theorem normNum_canonical (m : Int) (k : Nat) (h : k = 0 ∨ m % 10 ≠ 0) :
    normNum m k = ⟨m, k⟩ := by
  match k with
  | 0 => rfl
  | k' + 1 =>
    have hm : m % 10 ≠ 0 := by omega
    simp [normNum, hm]

theorem digitsToNat_replicate_zero (z : Nat) (l : List Char) :
    digitsToNat (List.replicate z '0' ++ l) = digitsToNat l := by
  induction z with
  | zero => simp
  | succ z ih =>
    rw [List.replicate_succ, List.cons_append]
    show digitsToNat (List.replicate z '0' ++ l) = digitsToNat l
    exact ih

theorem parseFloatJS_decimal_layout (intPart fracPart : List Char) (sign : Bool)
    (hi : ∀ c ∈ intPart, c.isDigit = true) (hf : ∀ c ∈ fracPart, c.isDigit = true)
    (hne : intPart ≠ []) :
    parseFloatJS ((if sign then ['-'] else []) ++ intPart ++ '.' :: fracPart) =
      some (normNum ((if sign then -1 else 1) * (digitsToNat (intPart ++ fracPart) : Int))
        fracPart.length) := by
  have hdot : ('.' : Char).isDigit = false := by decide
  obtain ⟨a, t, rfl⟩ : ∃ a t, intPart = a :: t := by
    cases intPart with
    | nil => exact absurd rfl hne
    | cons a t => exact ⟨a, t, rfl⟩
  have ha : a.isDigit = true := hi a (by simp)
  have htake : List.takeWhile (fun x => x.isDigit) (a :: (t ++ '.' :: fracPart)) = a :: t :=
    takeWhile_append_stop fracPart '.' hdot (a :: t) hi
  have hdrop : List.dropWhile (fun x => x.isDigit) (a :: (t ++ '.' :: fracPart)) =
      '.' :: fracPart :=
    dropWhile_append_stop fracPart '.' hdot (a :: t) hi
  cases sign with
  | false =>
    have hws : List.dropWhile (fun x => x.isWhitespace) (a :: (t ++ '.' :: fracPart)) =
        a :: (t ++ '.' :: fracPart) := by
      rw [List.dropWhile_cons, if_neg]
      simp [isDigit_not_whitespace ha]
    have hsign : readSign (a :: (t ++ '.' :: fracPart)) = (1, a :: (t ++ '.' :: fracPart)) :=
      readSign_digit _ ha
    show parseFloatJS (a :: (t ++ '.' :: fracPart)) =
      some (normNum (1 * (digitsToNat ((a :: t) ++ fracPart) : Int)) fracPart.length)
    simp only [parseFloatJS, hws, hsign, htake, hdrop, takeWhile_all fracPart hf]
    simp [List.cons_append]
  | true =>
    have hws : List.dropWhile (fun x => x.isWhitespace) ('-' :: a :: (t ++ '.' :: fracPart)) =
        '-' :: a :: (t ++ '.' :: fracPart) := by
      rw [List.dropWhile_cons, if_neg]
      simp
    have hsign : readSign ('-' :: a :: (t ++ '.' :: fracPart)) =
        (-1, a :: (t ++ '.' :: fracPart)) := by
      simp [readSign]
    show parseFloatJS ('-' :: a :: (t ++ '.' :: fracPart)) =
      some (normNum (-1 * (digitsToNat ((a :: t) ++ fracPart) : Int)) fracPart.length)
    simp only [parseFloatJS, hws, hsign, htake, hdrop, takeWhile_all fracPart hf]
    simp [List.cons_append]

theorem toList_mk (l : List Char) : (String.mk l).toList = l := rfl

theorem fromLiteral_integer (value : String) :
    fromLiteral value xsdInteger =
      match parseIntJS value.toList with
      | some n => DecodedValue.num ⟨n, 0⟩
      | none => DecodedValue.nan := by
  have h1 : ¬(xsdInteger = xsdDateTime) := by decide
  simp [fromLiteral, h1]

theorem fromLiteral_decimal (value : String) :
    fromLiteral value xsdDecimal =
      match parseFloatJS value.toList with
      | some v => DecodedValue.num v
      | none => DecodedValue.nan := by
  have h1 : ¬(xsdDecimal = xsdDateTime) := by decide
  have h2 : ¬(xsdDecimal = xsdInteger) := by decide
  simp [fromLiteral, h1, h2]

theorem fromLiteral_other (value : String) (datatypeIri : String)
    (h1 : datatypeIri ≠ xsdDateTime) (h2 : datatypeIri ≠ xsdInteger)
    (h3 : datatypeIri ≠ xsdDecimal) :
    fromLiteral value datatypeIri = DecodedValue.str value := by
  simp [fromLiteral, h1, h2, h3]

theorem numToString_decimal (m : Int) (k' : Nat) :
    ∃ intPart fracPart : List Char,
      numToString ⟨m, k' + 1⟩ = (if m < 0 then ['-'] else []) ++ intPart ++ '.' :: fracPart ∧
      (∀ c ∈ intPart, c.isDigit = true) ∧ (∀ c ∈ fracPart, c.isDigit = true) ∧
      intPart ≠ [] ∧ fracPart.length = k' + 1 ∧
      digitsToNat (intPart ++ fracPart) = m.natAbs := by
  set ds := natChars m.natAbs with hds
  set padded := List.replicate (k' + 1 + 1 - ds.length) '0' ++ ds with hpad
  have hpdigits : ∀ c ∈ padded, c.isDigit = true := by
    intro c hc
    rcases List.mem_append.mp hc with h | h
    · rw [List.eq_of_mem_replicate h]; decide
    · exact natChars_isDigit _ c h
  have hplen : k' + 2 ≤ padded.length := by
    rw [hpad]
    simp only [List.length_append, List.length_replicate]
    omega
  refine ⟨padded.take (padded.length - (k' + 1)), padded.drop (padded.length - (k' + 1)),
    rfl, ?_, ?_, ?_, ?_, ?_⟩
  · intro c hc
    exact hpdigits c (List.take_subset _ _ hc)
  · intro c hc
    exact hpdigits c (List.drop_subset _ _ hc)
  · have h1 : 0 < (padded.take (padded.length - (k' + 1))).length := by
      rw [List.length_take]
      omega
    exact List.length_pos.mp h1
  · rw [List.length_drop]
    omega
  · rw [List.take_append_drop, hpad, digitsToNat_replicate_zero, digitsToNat_natChars]

theorem decodeObject_fromNumber (v : JSNum) (h : v.k = 0 ∨ v.m % 10 ≠ 0) :
    decodeObject (fromNumber v) = some (DecodedValue.num v) := by
  obtain ⟨m, k⟩ := v
  match k, h with
  | 0, _ =>
    have hns : numToString ⟨m, 0⟩ = intChars m := rfl
    have hdot : (intChars m).any (fun c => c = '.') = false := by
      rw [List.any_eq_false]
      intro c hc
      rcases intChars_mem m c hc with rfl | hd
      · decide
      · simp [isDigit_ne_dot hd]
    have he : (intChars m).any (fun c => c = 'e') = false := by
      rw [List.any_eq_false]
      intro c hc
      rcases intChars_mem m c hc with rfl | hd
      · decide
      · simp [isDigit_ne_e hd]
    have hlit : fromNumber ⟨m, 0⟩ = Term.literal (String.mk (intChars m)) "" xsdInteger := by
      simp [fromNumber, hns, hdot, he]
    rw [hlit]
    show some (fromLiteral (String.mk (intChars m)) xsdInteger) = _
    rw [fromLiteral_integer, toList_mk, parseIntJS_intChars]
  | k' + 1, h =>
    have hm : m % 10 ≠ 0 := by
      rcases h with h | h
      · simp at h
      · exact h
    obtain ⟨intPart, fracPart, heq, hdi, hdf, hne, hlen, hval⟩ := numToString_decimal m k'
    have hdotmem : '.' ∈ numToString ⟨m, k' + 1⟩ := by
      rw [heq]
      simp
    have hany : (numToString ⟨m, k' + 1⟩).any (fun c => c = '.') = true := by
      rw [List.any_eq_true]
      exact ⟨'.', hdotmem, by simp⟩
    have hlit : fromNumber ⟨m, k' + 1⟩ =
        Term.literal (String.mk (numToString ⟨m, k' + 1⟩)) "" xsdDecimal := by
      simp [fromNumber, hany]
    rw [hlit]
    show some (fromLiteral (String.mk (numToString ⟨m, k' + 1⟩)) xsdDecimal) = _
    rw [fromLiteral_decimal, toList_mk]
    by_cases hneg : m < 0
    · have hlay : parseFloatJS ('-' :: (intPart ++ '.' :: fracPart)) =
          some (normNum (-((digitsToNat (intPart ++ fracPart)) : Int)) fracPart.length) := by
        simpa using parseFloatJS_decimal_layout intPart fracPart true hdi hdf hne
      rw [heq, if_pos hneg]
      simp only [List.singleton_append, List.cons_append, List.nil_append] at hlay ⊢
      rw [hlay, hval, hlen]
      have hmval : -((m.natAbs : Int)) = m := by omega
      rw [hmval, normNum_canonical m (k' + 1) (Or.inr hm)]
    · have hlay : parseFloatJS (intPart ++ '.' :: fracPart) =
          some (normNum ((digitsToNat (intPart ++ fracPart)) : Int) fracPart.length) := by
        simpa using parseFloatJS_decimal_layout intPart fracPart false hdi hdf hne
      rw [heq, if_neg hneg]
      simp only [List.nil_append] at hlay ⊢
      rw [hlay, hval, hlen]
      have hmval : ((m.natAbs : Int)) = m := by omega
      rw [hmval, normNum_canonical m (k' + 1) (Or.inr hm)]

/-! ### Date codec round trip -/

theorem natCharsAux_three (g n : Nat) (h1 : 100 ≤ n) (h2 : n ≤ 999) :
    natCharsAux (g + 3) n =
      [Nat.digitChar (n / 100), Nat.digitChar (n / 10 % 10), Nat.digitChar (n % 10)] := by
  rw [natCharsAux_succ _ _ (by omega)]
  rw [natCharsAux_succ _ _ (by omega : n / 10 ≠ 0)]
  rw [natCharsAux_succ _ _ (by omega : n / 10 / 10 ≠ 0)]
  rw [show n / 10 / 10 / 10 = 0 by omega, natCharsAux_zero]
  have e1 : n / 10 / 10 = n / 100 := by omega
  have e2 : n / 100 % 10 = n / 100 := by omega
  simp [e1, e2]

theorem natChars_three (n : Nat) (h1 : 100 ≤ n) (h2 : n ≤ 999) :
    natChars n =
      [Nat.digitChar (n / 100), Nat.digitChar (n / 10 % 10), Nat.digitChar (n % 10)] := by
  obtain ⟨g, hg⟩ : ∃ g, n = g + 3 := ⟨n - 3, by omega⟩
  rw [natChars, if_neg (by omega)]
  calc natCharsAux n n = natCharsAux (g + 3) n := by rw [hg]
    _ = _ := natCharsAux_three g n h1 h2

theorem natCharsAux_four (g n : Nat) (h1 : 1000 ≤ n) (h2 : n ≤ 9999) :
    natCharsAux (g + 4) n =
      [Nat.digitChar (n / 1000), Nat.digitChar (n / 100 % 10), Nat.digitChar (n / 10 % 10),
        Nat.digitChar (n % 10)] := by
  rw [natCharsAux_succ _ _ (by omega)]
  rw [natCharsAux_succ _ _ (by omega : n / 10 ≠ 0)]
  rw [natCharsAux_succ _ _ (by omega : n / 10 / 10 ≠ 0)]
  rw [natCharsAux_succ _ _ (by omega : n / 10 / 10 / 10 ≠ 0)]
  rw [show n / 10 / 10 / 10 / 10 = 0 by omega, natCharsAux_zero]
  have e1 : n / 10 / 10 = n / 100 := by omega
  have e2 : n / 10 / 10 / 10 = n / 1000 := by omega
  have e3 : n / 1000 % 10 = n / 1000 := by omega
  have e4 : n / 100 / 10 % 10 = n / 1000 := by omega
  simp [e1, e2, e3, e4]

theorem natChars_four (n : Nat) (h1 : 1000 ≤ n) (h2 : n ≤ 9999) :
    natChars n =
      [Nat.digitChar (n / 1000), Nat.digitChar (n / 100 % 10), Nat.digitChar (n / 10 % 10),
        Nat.digitChar (n % 10)] := by
  obtain ⟨g, hg⟩ : ∃ g, n = g + 4 := ⟨n - 4, by omega⟩
  rw [natChars, if_neg (by omega)]
  calc natCharsAux n n = natCharsAux (g + 4) n := by rw [hg]
    _ = _ := natCharsAux_four g n h1 h2

theorem intChars_nonneg (m : Int) (h : 0 ≤ m) : intChars m = natChars m.toNat := by
  rw [intChars, if_neg (by omega)]

theorem twoDigitChars_spec (x : Int) (h1 : 0 ≤ x) (h2 : x ≤ 99) :
    (twoDigitChars x).length = 2 ∧ (∀ c ∈ twoDigitChars x, c.isDigit = true) ∧
      parseIntJS (twoDigitChars x) = some x := by
  have hv1 : 100 ≤ (100 + x).toNat := by omega
  have hv2 : (100 + x).toNat ≤ 199 := by omega
  have hshape : twoDigitChars x =
      [Nat.digitChar ((100 + x).toNat / 10 % 10), Nat.digitChar ((100 + x).toNat % 10)] := by
    rw [twoDigitChars, intChars_nonneg _ (by omega), natChars_three _ hv1 (by omega)]
    rfl
  have hdig : ∀ c ∈ twoDigitChars x, c.isDigit = true := by
    rw [hshape]
    intro c hc
    rcases List.mem_cons.mp hc with rfl | hc
    · exact digitChar_isDigit (by omega)
    · rcases List.mem_cons.mp hc with rfl | hc
      · exact digitChar_isDigit (by omega)
      · simp at hc
  refine ⟨by rw [hshape]; rfl, hdig, ?_⟩
  rw [parseIntJS_digits _ hdig (by rw [hshape]; simp)]
  have hval : digitsToNat (twoDigitChars x) = (100 + x).toNat % 100 := by
    rw [hshape]
    simp only [digitsToNat, List.foldl_cons, List.foldl_nil]
    rw [digitChar_toNat (show (100 + x).toNat / 10 % 10 < 10 by omega),
      digitChar_toNat (show (100 + x).toNat % 10 < 10 by omega)]
    omega
  rw [hval]
  congr 1
  omega

theorem jsIndexOf_append (r : List Char) (c : Char) :
    ∀ l : List Char, c ∉ l → jsIndexOf (l ++ c :: r) c = l.length := by
  intro l
  induction l with
  | nil =>
    intro _
    simp [jsIndexOf]
  | cons a t ih =>
    intro h
    have hac : ¬(a = c) := by intro e; exact h (by simp [e])
    have ht : c ∉ t := fun hc => h (by simp [hc])
    rw [List.cons_append]
    show jsIndexOf (a :: (t ++ c :: r)) c = _
    simp only [jsIndexOf, hac, if_false]
    rw [ih ht]
    have hnn : ¬((t.length : Int) < 0) := by omega
    simp only [hnn, if_false, List.length_cons]
    push_cast
    ring

theorem jsSubstring_nat (l : List Char) (a b : Int) (ha : 0 ≤ a) (hab : a ≤ b)
    (hb : b ≤ l.length) :
    jsSubstring l a b = (l.drop a.toNat).take (b - a).toNat := by
  have e1 : min (max a 0) (l.length : Int) = a := by omega
  have e2 : min (max b 0) (l.length : Int) = b := by omega
  simp only [jsSubstring, e1, e2]
  have e3 : min a b = a := by omega
  have e4 : max a b = b := by omega
  rw [e3, e4]

theorem take_append_len {α : Type} (l r : List α) (n : Nat) (h : l.length = n) :
    (l ++ r).take n = l := by
  subst h
  exact List.take_left l r

theorem drop_append_len {α : Type} (l r : List α) (n : Nat) (h : l.length = n) :
    (l ++ r).drop n = r := by
  subst h
  exact List.drop_left l r

theorem fromLiteral_fromDate (d : CivilDate)
    (hy1 : 1000 ≤ d.utcFullYear) (hy2 : d.utcFullYear ≤ 9999)
    (hmo1 : 0 ≤ d.utcMonth) (hmo2 : d.utcMonth ≤ 11)
    (hd1 : 1 ≤ d.utcDate) (hd2 : d.utcDate ≤ 31)
    (hh1 : 0 ≤ d.utcHours) (hh2 : d.utcHours ≤ 23)
    (hmi1 : 0 ≤ d.utcMinutes) (hmi2 : d.utcMinutes ≤ 59)
    (hs1 : 0 ≤ d.utcSeconds) (hs2 : d.utcSeconds ≤ 59) :
    fromLiteral (String.mk (dateChars d)) xsdDateTime =
      DecodedValue.date { d with utcMilliseconds := 0 } := by
  obtain ⟨y, mo, dd, hh, mi, ss, ms⟩ := d
  dsimp only at hy1 hy2 hmo1 hmo2 hd1 hd2 hh1 hh2 hmi1 hmi2 hs1 hs2
  have hYparse : parseIntJS (intChars y) = some y := parseIntJS_intChars y
  have hYlen : (intChars y).length = 4 := by
    rw [intChars_nonneg y (by omega), natChars_four y.toNat (by omega) (by omega)]
    rfl
  have hYdig : ∀ c ∈ intChars y, c.isDigit = true := by
    rw [intChars_nonneg y (by omega)]
    exact natChars_isDigit _
  obtain ⟨hAlen, hAdig, hAparse⟩ := twoDigitChars_spec (mo + 1) (by omega) (by omega)
  obtain ⟨hBlen, hBdig, hBparse⟩ := twoDigitChars_spec dd (by omega) (by omega)
  obtain ⟨hClen, hCdig, hCparse⟩ := twoDigitChars_spec hh (by omega) (by omega)
  obtain ⟨hDlen, hDdig, hDparse⟩ := twoDigitChars_spec mi (by omega) (by omega)
  obtain ⟨hElen, hEdig, hEparse⟩ := twoDigitChars_spec ss (by omega) (by omega)
  set Y := intChars y with hYdef
  set A := twoDigitChars (mo + 1) with hAdef
  set B := twoDigitChars dd with hBdef
  set C := twoDigitChars hh with hCdef
  set D := twoDigitChars mi with hDdef
  set E := twoDigitChars ss with hEdef
  have hL : dateChars ⟨y, mo, dd, hh, mi, ss, ms⟩ =
      Y ++ '-' :: (A ++ '-' :: (B ++ 'T' :: (C ++ ':' :: (D ++ ':' :: (E ++ ['Z']))))) := by
    simp [dateChars, List.append_assoc]
  have hLlen : (dateChars ⟨y, mo, dd, hh, mi, ss, ms⟩).length = 20 := by
    rw [hL]
    simp [hYlen, hAlen, hBlen, hClen, hDlen, hElen]
  have hsplit5 : dateChars ⟨y, mo, dd, hh, mi, ss, ms⟩ =
      (Y ++ ['-']) ++ (A ++ '-' :: (B ++ 'T' :: (C ++ ':' :: (D ++ ':' :: (E ++ ['Z']))))) := by
    rw [hL]
    simp [List.append_assoc]
  have hsplit8 : dateChars ⟨y, mo, dd, hh, mi, ss, ms⟩ =
      (Y ++ ['-'] ++ A ++ ['-']) ++ (B ++ 'T' :: (C ++ ':' :: (D ++ ':' :: (E ++ ['Z'])))) := by
    rw [hL]
    simp [List.append_assoc]
  have hsplit11 : dateChars ⟨y, mo, dd, hh, mi, ss, ms⟩ =
      (Y ++ ['-'] ++ A ++ ['-'] ++ B ++ ['T']) ++ (C ++ ':' :: (D ++ ':' :: (E ++ ['Z']))) := by
    rw [hL]
    simp [List.append_assoc]
  have hsplit14 : dateChars ⟨y, mo, dd, hh, mi, ss, ms⟩ =
      (Y ++ ['-'] ++ A ++ ['-'] ++ B ++ ['T'] ++ C ++ [':']) ++ (D ++ ':' :: (E ++ ['Z'])) := by
    rw [hL]
    simp [List.append_assoc]
  have hsplit17 : dateChars ⟨y, mo, dd, hh, mi, ss, ms⟩ =
      (Y ++ ['-'] ++ A ++ ['-'] ++ B ++ ['T'] ++ C ++ [':'] ++ D ++ [':']) ++ (E ++ ['Z']) := by
    rw [hL]
    simp [List.append_assoc]
  have e1 : jsSubstring (dateChars ⟨y, mo, dd, hh, mi, ss, ms⟩) 0 4 = Y := by
    rw [jsSubstring_nat _ 0 4 (by norm_num) (by norm_num) (by rw [hLlen]; norm_num)]
    norm_num
    rw [show ((4 : Int)).toNat = 4 from rfl, hL]
    exact take_append_len Y _ 4 hYlen
  have e2 : jsSubstring (dateChars ⟨y, mo, dd, hh, mi, ss, ms⟩) 5 7 = A := by
    rw [jsSubstring_nat _ 5 7 (by norm_num) (by norm_num) (by rw [hLlen]; norm_num)]
    norm_num
    rw [show ((5 : Int)).toNat = 5 from rfl, show ((2 : Int)).toNat = 2 from rfl]
    rw [hsplit5, drop_append_len _ _ 5 (by simp [hYlen])]
    exact take_append_len A _ 2 hAlen
  have e3 : jsSubstring (dateChars ⟨y, mo, dd, hh, mi, ss, ms⟩) 8 10 = B := by
    rw [jsSubstring_nat _ 8 10 (by norm_num) (by norm_num) (by rw [hLlen]; norm_num)]
    norm_num
    rw [show ((8 : Int)).toNat = 8 from rfl, show ((2 : Int)).toNat = 2 from rfl]
    rw [hsplit8, drop_append_len _ _ 8 (by simp [hYlen, hAlen])]
    exact take_append_len B _ 2 hBlen
  have e4 : jsSubstring (dateChars ⟨y, mo, dd, hh, mi, ss, ms⟩) 11 13 = C := by
    rw [jsSubstring_nat _ 11 13 (by norm_num) (by norm_num) (by rw [hLlen]; norm_num)]
    norm_num
    rw [show ((11 : Int)).toNat = 11 from rfl, show ((2 : Int)).toNat = 2 from rfl]
    rw [hsplit11, drop_append_len _ _ 11 (by simp [hYlen, hAlen, hBlen])]
    exact take_append_len C _ 2 hClen
  have e5 : jsSubstring (dateChars ⟨y, mo, dd, hh, mi, ss, ms⟩) 14 16 = D := by
    rw [jsSubstring_nat _ 14 16 (by norm_num) (by norm_num) (by rw [hLlen]; norm_num)]
    norm_num
    rw [show ((14 : Int)).toNat = 14 from rfl, show ((2 : Int)).toNat = 2 from rfl]
    rw [hsplit14, drop_append_len _ _ 14 (by simp [hYlen, hAlen, hBlen, hClen])]
    exact take_append_len D _ 2 hDlen
  have hZnot : 'Z' ∉ Y ++ '-' :: (A ++ '-' :: (B ++ 'T' :: (C ++ ':' :: (D ++ ':' :: E)))) := by
    intro hmem
    simp only [List.mem_append, List.mem_cons] at hmem
    rcases hmem with hc | hc | hc | hc | hc | hc | hc | hc | hc | hc | hc
    · exact isDigit_ne_Z (hYdig _ hc) rfl
    · exact absurd hc (by decide)
    · exact isDigit_ne_Z (hAdig _ hc) rfl
    · exact absurd hc (by decide)
    · exact isDigit_ne_Z (hBdig _ hc) rfl
    · exact absurd hc (by decide)
    · exact isDigit_ne_Z (hCdig _ hc) rfl
    · exact absurd hc (by decide)
    · exact isDigit_ne_Z (hDdig _ hc) rfl
    · exact absurd hc (by decide)
    · exact isDigit_ne_Z (hEdig _ hc) rfl
  have hsplitZ : dateChars ⟨y, mo, dd, hh, mi, ss, ms⟩ =
      (Y ++ '-' :: (A ++ '-' :: (B ++ 'T' :: (C ++ ':' :: (D ++ ':' :: E))))) ++ 'Z' :: [] := by
    rw [hL]
    simp [List.append_assoc]
  have hPlen : (Y ++ '-' :: (A ++ '-' :: (B ++ 'T' :: (C ++ ':' :: (D ++ ':' :: E))))).length
      = 19 := by
    simp [hYlen, hAlen, hBlen, hClen, hDlen, hElen]
  have hidx : jsIndexOf (dateChars ⟨y, mo, dd, hh, mi, ss, ms⟩) 'Z' = (19 : Int) := by
    rw [hsplitZ, jsIndexOf_append [] 'Z' _ hZnot, hPlen]
    norm_num
  have e6 : jsSubstring (dateChars ⟨y, mo, dd, hh, mi, ss, ms⟩) 17
      (jsIndexOf (dateChars ⟨y, mo, dd, hh, mi, ss, ms⟩) 'Z') = E := by
    rw [hidx, jsSubstring_nat _ 17 19 (by norm_num) (by norm_num) (by rw [hLlen]; norm_num)]
    norm_num
    rw [show ((17 : Int)).toNat = 17 from rfl, show ((2 : Int)).toNat = 2 from rfl]
    rw [hsplit17, drop_append_len _ _ 17 (by simp [hYlen, hAlen, hBlen, hClen, hDlen])]
    exact take_append_len E _ 2 hElen
  show fromLiteral (String.mk (dateChars ⟨y, mo, dd, hh, mi, ss, ms⟩)) xsdDateTime = _
  simp only [fromLiteral, toList_mk, if_true]
  rw [e6, e1, e2, e3, e4, e5, hYparse, hAparse, hBparse, hCparse, hDparse, hEparse]
  have hmo : mo + 1 - 1 = mo := by omega
  simp [hmo]

/-- The native values on which the codec's round trip is claimed: strings,
numbers in canonical plain-decimal form, and dates whose components are in
the normalised UTC ranges with a four-digit year (the fixed-width lexical
layout assumes four year digits). -/
def SupportedValue : LiteralTypes → Prop
  | .str _ => True
  | .num v => v.k = 0 ∨ v.m % 10 ≠ 0
  | .date d =>
    1000 ≤ d.utcFullYear ∧ d.utcFullYear ≤ 9999 ∧ 0 ≤ d.utcMonth ∧ d.utcMonth ≤ 11 ∧
      1 ≤ d.utcDate ∧ d.utcDate ≤ 31 ∧ 0 ≤ d.utcHours ∧ d.utcHours ≤ 23 ∧
      0 ≤ d.utcMinutes ∧ d.utcMinutes ≤ 59 ∧ 0 ≤ d.utcSeconds ∧ d.utcSeconds ≤ 59

/-- Truncation of a native value to the precision the lexical layout can
hold: the identity except that a date loses its milliseconds. -/
def truncateToSecond : LiteralTypes → DecodedValue
  | .str s => .str s
  | .num v => .num v
  | .date d => .date { d with utcMilliseconds := 0 }

/-- C3: for every native value of a supported type (string, integer number,
non-integer number, Date), decoding the literal produced by encoding it
yields the same value back, modulo truncation of the timestamp to whole
seconds: strings round-trip verbatim, numbers exactly (in their canonical
decimal form), dates to the second. -/
theorem decode_encode_roundtrip (v : LiteralTypes) (h : SupportedValue v) :
    decodeObject (asLiteral v) = some (truncateToSecond v) := by
  match v, h with
  | .str s, _ =>
    show some (fromLiteral s xsdString) = _
    rw [fromLiteral_other s xsdString (by decide) (by decide) (by decide)]
    rfl
  | .num n, h => exact decodeObject_fromNumber n h
  | .date d, h =>
    obtain ⟨h1, h2, h3, h4, h5, h6, h7, h8, h9, h10, h11, h12⟩ := h
    show some (fromLiteral (String.mk (dateChars d)) xsdDateTime) = _
    rw [fromLiteral_fromDate d h1 h2 h3 h4 h5 h6 h7 h8 h9 h10 h11 h12]
    rfl

/-- Witness for C3 at the concrete date 2020-01-15T10:30:05.250Z: encoding
and decoding drops exactly the 250 milliseconds. -/
theorem decode_encode_roundtrip_witness :
    SupportedValue (LiteralTypes.date ⟨2020, 0, 15, 10, 30, 5, 250⟩) ∧
    decodeObject (asLiteral (LiteralTypes.date ⟨2020, 0, 15, 10, 30, 5, 250⟩)) =
      some (DecodedValue.date ⟨2020, 0, 15, 10, 30, 5, 0⟩) :=
  ⟨by norm_num [SupportedValue],
    (decode_encode_roundtrip (LiteralTypes.date ⟨2020, 0, 15, 10, 30, 5, 250⟩)
      (by norm_num [SupportedValue]))⟩

/-! ## The subject layer of `src/subject.ts`

`initialiseSubject` closes over the document reference, the subject
reference and two mutable pending-statement arrays; the getters query the
(rdflib) store scoped to the document.  The embedding carries that closure
state as an explicit structure; the mutators return the updated state. -/

/-- Predicate `isLiteral` from `src/index.ts` (termType check), as a match on the
closed term union. -/
def isLiteral : Term → Bool
  | .literal _ _ _ => true
  | _ => false

/-- Predicate `isNodeRef`/`isReference` from `src/index.ts`: node references are the
plain IRI strings among object values; blank nodes and literals are not. -/
def isNodeRef : Term → Bool
  | .namedNode _ => true
  | _ => false

/-- The IRI/value string of a term (rdflib's `.value`; named nodes are
handed to callers as their IRI string). -/
def termIri : Term → String
  | .namedNode i => i
  | .literal v _ _ => v
  | .blankNode i => i

/-- Decoder `fromLiteral` lifted to terms; the callers only ever apply it to
literal terms. -/
def fromLiteralTerm : Term → DecodedValue
  | .literal v _ dt => fromLiteral v dt
  | .namedNode i => .str i
  | .blankNode i => .str i

/-- Modelled from the spec: `findObjectsInStore` lives in
`src/getEntities.ts`, which is not among the sources at hand; spec §4.2
defines it as `objectsOf(subjectRef, predicateRef)` — the object values of
all statements matching subject, predicate and document context, in source
order. -/
def findObjectsInStore (store : List Stmt)
    (subjectRef predicateRef documentRef : String) : List Term :=
  (store.filter (fun s =>
    s.subject == Term.namedNode subjectRef && s.predicate == Term.namedNode predicateRef &&
      s.why == Term.namedNode documentRef)).map (fun s => s.object)

/-- The closure state of `initialiseSubject`: the owning document's
reference and statements, the subject reference, and the two pending
buffers. -/
structure TripleSubject where
  docRef : String
  subjectRef : String
  store : List Stmt
  pendingAdditions : List Stmt
  pendingDeletions : List Stmt
deriving DecidableEq, Repr

/-- Constructor `initialiseSubject`: fresh subject handle with empty pending buffers. -/
def initialiseSubject (store : List Stmt) (docRef subjectRef : String) : TripleSubject :=
  ⟨docRef, subjectRef, store, [], []⟩

/-- The local `get` helper of `initialiseSubject`. -/
def getObjects (s : TripleSubject) (predicateRef : String) : List Term :=
  findObjectsInStore s.store s.subjectRef predicateRef s.docRef

/-- Getter `getLiteral`: the first literal-typed object among the matches, decoded;
`none` when no literal matches. -/
def getLiteral (s : TripleSubject) (predicateRef : String) : Option DecodedValue :=
  ((getObjects s predicateRef).find? isLiteral).map fromLiteralTerm

/-- Getter `getAllLiterals`: every literal-typed object among the matches, decoded,
in source order. -/
def getAllLiterals (s : TripleSubject) (predicateRef : String) : List DecodedValue :=
  ((getObjects s predicateRef).filter isLiteral).map fromLiteralTerm

/-- Getter `getNodeRef`: the IRI of the first node-reference object among the
matches. -/
def getNodeRef (s : TripleSubject) (predicateRef : String) : Option String :=
  ((getObjects s predicateRef).find? isNodeRef).map termIri

/-- Getter `getAllNodeRefs`. -/
def getAllNodeRefs (s : TripleSubject) (predicateRef : String) : List String :=
  ((getObjects s predicateRef).filter isNodeRef).map termIri

/-- Getter `getType`: `getNodeRef` at `rdf:type`. -/
def getType (s : TripleSubject) : Option String :=
  getNodeRef s rdfType

/-- Mutator `addLiteral`: push the encoded statement onto `pendingAdditions`. -/
def addLiteral (s : TripleSubject) (predicateRef : String) (value : LiteralTypes) :
    TripleSubject :=
  { s with pendingAdditions := s.pendingAdditions ++
      [⟨Term.namedNode s.subjectRef, Term.namedNode predicateRef, asLiteral value,
        Term.namedNode s.docRef⟩] }

/-- Mutator `addNodeRef`: push the reference statement onto `pendingAdditions`. -/
def addNodeRef (s : TripleSubject) (predicateRef nodeRef : String) : TripleSubject :=
  { s with pendingAdditions := s.pendingAdditions ++
      [⟨Term.namedNode s.subjectRef, Term.namedNode predicateRef, Term.namedNode nodeRef,
        Term.namedNode s.docRef⟩] }

/-- Accessor `getPendingStatements`: the `[pendingDeletions, pendingAdditions]`
tuple. -/
def getPendingStatements (s : TripleSubject) : List Stmt × List Stmt :=
  (s.pendingDeletions, s.pendingAdditions)

/-- Callback `onSave`: reset both pending buffers. -/
def onSave (s : TripleSubject) : TripleSubject :=
  { s with pendingAdditions := [], pendingDeletions := [] }

theorem find?_first {α : Type} (p : α → Bool) :
    ∀ (l₁ : List α) (o : α) (l₂ : List α), p o = true → (∀ x ∈ l₁, p x = false) →
      (l₁ ++ o :: l₂).find? p = some o := by
  intro l₁
  induction l₁ with
  | nil =>
    intro o l₂ ho _
    simp [List.find?_cons, ho]
  | cons a t ih =>
    intro o l₂ ho hall
    have ha : p a = false := hall a (by simp)
    rw [List.cons_append, List.find?_cons, ha]
    exact ih o l₂ ho (fun x hx => hall x (by simp [hx]))

/-- C7: for every store, subject and predicate, `getLiteral` returns the
decoded value of the first literal-typed object among the matching objects
in source order — any node references before it are skipped — and returns
`none` when no literal-typed object matches.
(`findObjectsInStore` is modelled from the spec, see its doc comment.) -/
theorem getLiteral_first_literal (store : List Stmt)
    (docRef subjectRef predicateRef : String) :
    (∀ (l₁ : List Term) (o : Term) (l₂ : List Term),
        findObjectsInStore store subjectRef predicateRef docRef = l₁ ++ o :: l₂ →
        isLiteral o = true → (∀ x ∈ l₁, isLiteral x = false) →
        getLiteral (initialiseSubject store docRef subjectRef) predicateRef =
          some (fromLiteralTerm o)) ∧
    ((∀ x ∈ findObjectsInStore store subjectRef predicateRef docRef, isLiteral x = false) →
        getLiteral (initialiseSubject store docRef subjectRef) predicateRef = none) := by
  constructor
  · intro l₁ o l₂ hsplit ho hall
    have hobj : getObjects (initialiseSubject store docRef subjectRef) predicateRef =
        l₁ ++ o :: l₂ := hsplit
    rw [getLiteral, hobj, find?_first isLiteral l₁ o l₂ ho hall]
    rfl
  · intro hall
    have hobj : getObjects (initialiseSubject store docRef subjectRef) predicateRef =
        findObjectsInStore store subjectRef predicateRef docRef := rfl
    rw [getLiteral, hobj]
    rw [List.find?_eq_none.mpr (fun x hx => by simp [hall x hx])]
    rfl

/-- Witness for C7: with matching statements `[ref, lit "a"]` — a node
reference interleaved before the literal — `getLiteral` skips the reference
and returns the decoded literal. -/
theorem getLiteral_first_literal_witness :
    getLiteral (initialiseSubject
      [⟨Term.namedNode "https://s", Term.namedNode "https://p",
          Term.namedNode "https://x", Term.namedNode "https://doc"⟩,
        ⟨Term.namedNode "https://s", Term.namedNode "https://p",
          Term.literal "a" "" xsdString, Term.namedNode "https://doc"⟩]
      "https://doc" "https://s") "https://p" = some (DecodedValue.str "a") := by
  have h := (getLiteral_first_literal
      [⟨Term.namedNode "https://s", Term.namedNode "https://p",
          Term.namedNode "https://x", Term.namedNode "https://doc"⟩,
        ⟨Term.namedNode "https://s", Term.namedNode "https://p",
          Term.literal "a" "" xsdString, Term.namedNode "https://doc"⟩]
      "https://doc" "https://s" "https://p").1
    [Term.namedNode "https://x"] (Term.literal "a" "" xsdString) []
    (by decide) rfl (by decide)
  rw [h]
  rfl

/-- C8 counterexample: a literal with datatype `https://data.type/` (neither
string, integer, decimal nor dateTime) is *not* invisible to `getLiteral`:
its raw lexical form is returned as a string value, not `none`. -/
theorem getLiteral_other_datatype_cex :
    getLiteral (initialiseSubject
      [⟨Term.namedNode "https://s", Term.namedNode "https://p",
          Term.literal "Arbitrary literal value" "en" "https://data.type/",
          Term.namedNode "https://doc"⟩]
      "https://doc" "https://s") "https://p" =
        some (DecodedValue.str "Arbitrary literal value") ∧
    some (DecodedValue.str "Arbitrary literal value") ≠ (none : Option DecodedValue) := by
  constructor
  · decide
  · decide

/-- C8 amended: a statement object that is a literal with a datatype IRI
other than string, integer, decimal, or dateTime (including language-tagged
strings, whose datatype is `rdf:langString`) is decoded by the typed getters
to its raw lexical form as a string — it is returned, not treated as
absent. -/
theorem getLiteral_other_datatype (store : List Stmt)
    (docRef subjectRef predicateRef value language dt : String)
    (h1 : dt ≠ xsdDateTime) (h2 : dt ≠ xsdInteger) (h3 : dt ≠ xsdDecimal)
    (hfind : (getObjects (initialiseSubject store docRef subjectRef) predicateRef).find?
        isLiteral = some (Term.literal value language dt)) :
    getLiteral (initialiseSubject store docRef subjectRef) predicateRef =
      some (DecodedValue.str value) := by
  rw [getLiteral, hfind]
  show some (fromLiteral value dt) = _
  rw [fromLiteral_other value dt h1 h2 h3]

/-- Witness for the amended C8: the language-tagged mock literal of the
repository's own test suite is returned as its lexical form. -/
theorem getLiteral_other_datatype_witness :
    getLiteral (initialiseSubject
      [⟨Term.namedNode "https://s", Term.namedNode "https://p",
          Term.literal "Arbitrary literal value" "en" "https://data.type/",
          Term.namedNode "https://doc"⟩]
      "https://doc" "https://s") "https://p" =
      some (DecodedValue.str "Arbitrary literal value") :=
  getLiteral_other_datatype
    [⟨Term.namedNode "https://s", Term.namedNode "https://p",
        Term.literal "Arbitrary literal value" "en" "https://data.type/",
        Term.namedNode "https://doc"⟩]
    "https://doc" "https://s" "https://p" "Arbitrary literal value" "en" "https://data.type/"
    (by decide) (by decide) (by decide) (by decide)

/-- C9: at an integer-datatype literal whose lexical form `"abc"` is not
parsable, `getLiteral` returns the `NaN` produced by `parseInt` — it does
not surface the unparsable literal as an absence (`none`). -/
theorem getLiteral_unparsable_integer_nan :
    getLiteral (initialiseSubject
      [⟨Term.namedNode "https://s", Term.namedNode "https://p",
          Term.literal "abc" "" xsdInteger, Term.namedNode "https://doc"⟩]
      "https://doc" "https://s") "https://p" = some DecodedValue.nan ∧
    some DecodedValue.nan ≠ (none : Option DecodedValue) := by
  constructor
  · decide
  · decide

/-- C10: staging a mutation (`addLiteral` or `addNodeRef`) appends exactly
one statement to the subject's `pendingAdditions`, leaves `pendingDeletions`
and the document's statement sequence untouched, and changes no getter
result (`getLiteral`, `getAllLiterals`, `getNodeRef`, `getAllNodeRefs`,
`getType`): staged statements are invisible to reads. -/
theorem addLiteral_addNodeRef_frame (s : TripleSubject) (predicateRef predicateRef2 : String)
    (value : LiteralTypes) (nodeRef : String) :
    ((addLiteral s predicateRef value).store = s.store ∧
      (addLiteral s predicateRef value).pendingDeletions = s.pendingDeletions ∧
      (addLiteral s predicateRef value).pendingAdditions = s.pendingAdditions ++
        [⟨Term.namedNode s.subjectRef, Term.namedNode predicateRef, asLiteral value,
          Term.namedNode s.docRef⟩] ∧
      getLiteral (addLiteral s predicateRef value) predicateRef2 = getLiteral s predicateRef2 ∧
      getAllLiterals (addLiteral s predicateRef value) predicateRef2 =
        getAllLiterals s predicateRef2 ∧
      getNodeRef (addLiteral s predicateRef value) predicateRef2 = getNodeRef s predicateRef2 ∧
      getAllNodeRefs (addLiteral s predicateRef value) predicateRef2 =
        getAllNodeRefs s predicateRef2 ∧
      getType (addLiteral s predicateRef value) = getType s) ∧
    ((addNodeRef s predicateRef nodeRef).store = s.store ∧
      (addNodeRef s predicateRef nodeRef).pendingDeletions = s.pendingDeletions ∧
      (addNodeRef s predicateRef nodeRef).pendingAdditions = s.pendingAdditions ++
        [⟨Term.namedNode s.subjectRef, Term.namedNode predicateRef, Term.namedNode nodeRef,
          Term.namedNode s.docRef⟩] ∧
      getLiteral (addNodeRef s predicateRef nodeRef) predicateRef2 = getLiteral s predicateRef2 ∧
      getAllLiterals (addNodeRef s predicateRef nodeRef) predicateRef2 =
        getAllLiterals s predicateRef2 ∧
      getNodeRef (addNodeRef s predicateRef nodeRef) predicateRef2 =
        getNodeRef s predicateRef2 ∧
      getAllNodeRefs (addNodeRef s predicateRef nodeRef) predicateRef2 =
        getAllNodeRefs s predicateRef2 ∧
      getType (addNodeRef s predicateRef nodeRef) = getType s) :=
  ⟨⟨rfl, rfl, rfl, rfl, rfl, rfl, rfl, rfl⟩, ⟨rfl, rfl, rfl, rfl, rfl, rfl, rfl, rfl⟩⟩

/-! ## The rdflib-generation document (`src/unnamed/part_000`)

`instantiateDocument` strips the fragment from the IRI it is given
(`new URL(uri)` then `origin + pathname + search`); `save` aggregates the
relevant subjects' pending statements, calls the create or update
collaborator, and — only after the collaborator succeeds — calls `onSave()`
on every relevant subject.  The transport outcomes are passed to the model
as parameters. -/

namespace V1

/-- Modelled from the source comment in `instantiateDocument`
("Remove fragment identifiers (e.g. `#me`) from the URI"): keep everything
before the first `#`.  URL normalisation beyond fragment removal is not
modelled. -/
def stripFragment (uri : String) : String :=
  String.mk (uri.toList.takeWhile (fun c => !(c = '#')))

/-- The canonical reference `instantiateDocument` computes (and through it,
`createDocument` and `fetchDocument` of part_000). -/
def createDocumentRef (uri : String) : String := stripFragment uri

structure DocumentMetadata where
  aclRef : Option String
  existsOnPod : Bool
deriving DecidableEq, Repr

/-- The ACL reference extracted from a transport response's `Link` header
(the header parsing itself is an external collaborator). -/
structure RemoteResponse where
  aclRef : Option String
deriving DecidableEq, Repr

/-- Function `save` from part_000: filter the subjects to those owned by this
document, aggregate their pending diffs, call create (when not yet on the
Pod) or update, and on success clear every relevant subject's buffers via
`onSave` and return them.  On transport failure the error propagates and
neither the metadata nor any subject is changed. -/
def save (documentRef : String) (metadata : DocumentMetadata)
    (subjects : List TripleSubject)
    (createResp : Except String RemoteResponse) (updateResp : Except String Unit) :
    Except String (DocumentMetadata × List TripleSubject) :=
  let relevantSubjects := subjects.filter (fun s => s.docRef == documentRef)
  let _allChanges := relevantSubjects.foldl
    (fun (acc : List Stmt × List Stmt) s =>
      (acc.1 ++ s.pendingDeletions, acc.2 ++ s.pendingAdditions)) ([], [])
  if !metadata.existsOnPod then
    match createResp with
    | .error e => .error e
    | .ok r =>
      let md1 := match r.aclRef with
        | some a => { metadata with aclRef := some a }
        | none => metadata
      .ok ({ md1 with existsOnPod := true }, relevantSubjects.map onSave)
  else
    match updateResp with
    | .error e => .error e
    | .ok _ => .ok (metadata, relevantSubjects.map onSave)

/-- part_000's `instantiateDocument` strips fragments, so its
`createDocument("https://x.com/doc#frag")` yields the canonical reference
without the fragment (the behaviour spec I4 describes). -/
theorem createDocumentRef_strips_fragment :
    createDocumentRef "https://x.com/doc#frag" = "https://x.com/doc" := by decide

/-- In part_000, a successful save returns every relevant subject with both
pending buffers cleared (the `onSave` calls of line 200), and a failed save
propagates the error having cleared nothing. -/
theorem save_success_clears_buffers (documentRef : String) (metadata : DocumentMetadata)
    (subjects : List TripleSubject)
    (createResp : Except String RemoteResponse) (updateResp : Except String Unit)
    (md : DocumentMetadata) (out : List TripleSubject)
    (h : save documentRef metadata subjects createResp updateResp = .ok (md, out)) :
    ∀ s ∈ out, s.pendingAdditions = [] ∧ s.pendingDeletions = [] := by
  unfold save at h
  intro s hs
  split at h
  · split at h
    · exact absurd h (by simp)
    · rw [Except.ok.injEq, Prod.mk.injEq] at h
      rw [← h.2] at hs
      obtain ⟨s0, _, rfl⟩ := List.mem_map.mp hs
      exact ⟨rfl, rfl⟩
  · split at h
    · exact absurd h (by simp)
    · rw [Except.ok.injEq, Prod.mk.injEq] at h
      rw [← h.2] at hs
      obtain ⟨s0, _, rfl⟩ := List.mem_map.mp hs
      exact ⟨rfl, rfl⟩

end V1

/-! ## The N3-generation document (`src/unnamed/part_001`)

`instantiateDocument` closes over `documentRef`, the `triples` array, a
`metadata` object and the memoised `accessedSubjects` map.  `save` computes
the aggregate diff and the next statement array, performs the create or
update call, on the create path mutates the *shared* `metadata` object, and
returns a freshly instantiated document with the new triples and an empty
subject map.  It never calls any subject's `onSave`.  The model returns the
pair (save result, state of the original document after the call). -/

namespace V3

structure Metadata where
  aclRef : Option String
  webSocketRef : Option String
  existsOnPod : Bool
deriving DecidableEq, Repr

/-- The per-subject closure state reachable from a part_001 document:
the owning document's reference (`subject.getDocument().asRef()`) and the
two pending buffers returned by `getPendingTriples()`. -/
structure SubjectState where
  docRef : String
  pendingDeletions : List Stmt
  pendingAdditions : List Stmt
deriving DecidableEq, Repr

structure TripleDocument where
  documentRef : String
  triples : List Stmt
  metadata : Metadata
  accessedSubjects : List SubjectState
deriving DecidableEq, Repr

/-- The references extracted from a create response (`Link rel=acl` header
and `Updates-Via` header); header parsing is an external collaborator. -/
structure CreateResponse where
  aclRef : Option String
  webSocketRef : Option String
deriving DecidableEq, Repr

/-- Function `createDocument` from part_001: `instantiateDocument` on the
given reference with empty triples and `existsOnPod` false — the reference
is passed through unchanged; part_001 strips fragments only in
`fetchDocument`. -/
def createDocument (ref : String) : TripleDocument :=
  { documentRef := ref, triples := [], metadata := ⟨none, none, false⟩,
    accessedSubjects := [] }

/-- Step 1 of `save`: the subjects whose owning document is this document
(`subjects.filter(subject => subject.getDocument().asRef() === documentRef)`). -/
def relevantSubjects (doc : TripleDocument) : List SubjectState :=
  doc.accessedSubjects.filter (fun s => s.docRef == doc.documentRef)

/-- Step 2 of `save`: the `[allDeletions, allAdditions]` reduce over the
relevant subjects' pending diffs, preserving subject order then per-subject
call order. -/
def aggregateDiff (doc : TripleDocument) : List Stmt × List Stmt :=
  (relevantSubjects doc).foldl
    (fun (acc : List Stmt × List Stmt) s =>
      (acc.1 ++ s.pendingDeletions, acc.2 ++ s.pendingAdditions)) ([], [])

/-- The `newTriples` array of `save`:
`triples.concat(allAdditions).filter(t => allDeletions.findIndex(d => d.equals(t)) === -1)`. -/
def newTriples (doc : TripleDocument) : List Stmt :=
  (doc.triples ++ (aggregateDiff doc).2).filter
    (fun t => (((aggregateDiff doc).1).findIdx? (fun d => d == t)).isNone)

/-- Function `save` from part_001, on the document's accessed subjects (the default
`subjects` argument).  Returns the `Except` result carrying the newly
instantiated document, paired with the state of the original document after
the call (the create path mutates the shared `metadata` object; no
subject's `onSave` is ever called). -/
def save (doc : TripleDocument)
    (createResp : Except String CreateResponse) (updateResp : Except String Unit) :
    Except String TripleDocument × TripleDocument :=
  if !doc.metadata.existsOnPod then
    match createResp with
    | .error e => (.error e, doc)
    | .ok r =>
      let md : Metadata :=
        { aclRef := (match r.aclRef with | some a => some a | none => doc.metadata.aclRef),
          webSocketRef :=
            (match r.webSocketRef with | some w => some w | none => doc.metadata.webSocketRef),
          existsOnPod := true }
      (Except.ok (TripleDocument.mk doc.documentRef (newTriples doc) md []),
        { doc with metadata := md })
  else
    match updateResp with
    | .error e => (.error e, doc)
    | .ok _ =>
      (Except.ok (TripleDocument.mk doc.documentRef (newTriples doc) doc.metadata []),
        doc)

end V3

/-- C6: part_001's `createDocument` keeps the fragment: the document created
at `"https://x.com/doc#frag"` reports exactly that reference, which differs
from the fragment-stripped canonical reference `"https://x.com/doc"` the
claim (and spec I4, and part_000's `instantiateDocument`) prescribe. -/
theorem createDocument_keeps_fragment :
    (V3.createDocument "https://x.com/doc#frag").documentRef = "https://x.com/doc#frag" ∧
    "https://x.com/doc#frag" ≠ "https://x.com/doc" := by
  constructor
  · rfl
  · decide

theorem foldl_diff_join (subs : List V3.SubjectState) :
    ∀ acc : List Stmt × List Stmt,
      subs.foldl (fun (acc : List Stmt × List Stmt) s =>
          (acc.1 ++ s.pendingDeletions, acc.2 ++ s.pendingAdditions)) acc =
        (acc.1 ++ (subs.map (fun s => s.pendingDeletions)).flatten,
          acc.2 ++ (subs.map (fun s => s.pendingAdditions)).flatten) := by
  induction subs with
  | nil => intro acc; simp
  | cons a t ih =>
    intro acc
    rw [List.foldl_cons, ih]
    simp [List.append_assoc]

theorem findIdx?_beq_isNone (dels : List Stmt) (t : Stmt) :
    (dels.findIdx? (fun d => d == t)).isNone = decide (t ∉ dels) := by
  by_cases hmem : t ∈ dels
  · have hne : dels.findIdx? (fun d => d == t) ≠ none := fun hnone => by
      have hall := List.findIdx?_eq_none_iff.mp hnone
      have hx := hall t hmem
      simp at hx
    simp only [hmem, not_true_eq_false]
    rcases hopt : dels.findIdx? (fun d => d == t) with _ | i
    · exact absurd hopt hne
    · rfl
  · have hnone : dels.findIdx? (fun d => d == t) = none := by
      rw [List.findIdx?_eq_none_iff]
      intro x hx
      simp only [beq_eq_false_iff_ne, ne_eq]
      rintro rfl
      exact hmem hx
    simp [hnone, hmem]

/-- C1 amended: for every document on which `save` succeeds, the new
snapshot's statement sequence equals the old statements concatenated with
all staged additions, from which every statement structurally equal to
*any* element of the staged deletions is removed (a set-like filter that
removes all equal occurrences — including additions staged in the same
call — rather than one occurrence per staged deletion), preserving the
relative order of the survivors. -/
theorem save_newTriples_filter (doc : V3.TripleDocument)
    (createResp : Except String V3.CreateResponse) (updateResp : Except String Unit)
    (newDoc oldDoc : V3.TripleDocument)
    (h : V3.save doc createResp updateResp = (.ok newDoc, oldDoc)) :
    newDoc.triples =
      (doc.triples ++
          ((V3.relevantSubjects doc).map (fun s => s.pendingAdditions)).flatten).filter
        (fun t =>
          decide
            (t ∉ ((V3.relevantSubjects doc).map (fun s => s.pendingDeletions)).flatten)) := by
  have hnt : newDoc.triples = V3.newTriples doc := by
    unfold V3.save at h
    split at h
    · match createResp, h with
      | .error e, h => simp at h
      | .ok r, h =>
        rw [Prod.mk.injEq, Except.ok.injEq] at h
        rw [← h.1]
    · match updateResp, h with
      | .error e, h => simp at h
      | .ok r, h =>
        rw [Prod.mk.injEq, Except.ok.injEq] at h
        rw [← h.1]
  rw [hnt]
  unfold V3.newTriples V3.aggregateDiff
  rw [foldl_diff_join]
  simp only [List.nil_append]
  exact List.filter_congr (fun t _ => findIdx?_beq_isNone _ t)

def c1Stmt1 : Stmt :=
  ⟨Term.namedNode "https://s", Term.namedNode "https://p",
    Term.namedNode "https://o1", Term.namedNode "https://doc"⟩

def c1Stmt2 : Stmt :=
  ⟨Term.namedNode "https://s", Term.namedNode "https://p",
    Term.namedNode "https://o2", Term.namedNode "https://doc"⟩

/-- A saved document with one triple, whose single subject stages the
deletion of that triple and the addition of another. -/
def c1Doc : V3.TripleDocument :=
  ⟨"https://doc", [c1Stmt1], ⟨none, none, true⟩, [⟨"https://doc", [c1Stmt1], [c1Stmt2]⟩]⟩

/-- Witness for the amended C1: saving `c1Doc` succeeds and the new
snapshot's statements are exactly the filter expression of the amended
claim. -/
theorem save_newTriples_filter_witness :
    V3.save c1Doc (.error "unused") (.ok ()) =
      (Except.ok (V3.TripleDocument.mk "https://doc" [c1Stmt2] ⟨none, none, true⟩ []),
        c1Doc) ∧
    (V3.TripleDocument.mk "https://doc" [c1Stmt2] ⟨none, none, true⟩ []).triples =
      (c1Doc.triples ++
          ((V3.relevantSubjects c1Doc).map (fun s => s.pendingAdditions)).flatten).filter
        (fun t =>
          decide
            (t ∉ ((V3.relevantSubjects c1Doc).map (fun s => s.pendingDeletions)).flatten)) :=
  ⟨rfl,
    save_newTriples_filter c1Doc (.error "unused") (.ok ())
      (V3.TripleDocument.mk "https://doc" [c1Stmt2] ⟨none, none, true⟩ []) c1Doc rfl⟩

/-- Remove the first occurrence structurally equal to `d` from `l`, if any.
Written to the spec's words for the refinement comparison of C1. -/
def removeOneOccurrence (l : List Stmt) (d : Stmt) : List Stmt :=
  match l with
  | [] => []
  | x :: r => if x = d then r else x :: removeOneOccurrence r d

/-- The statement-sequence update exactly as the spec words it
("`newStatements = (oldStatements ++ allAdditions)` minus every element
structurally equal to any element of `allDeletions`; multiset-aware: a
deletion removes at most one structurally-equal occurrence, preserving
relative order of survivors").  Written to the spec's words for the
refinement comparison of C1. -/
def specNewStatements (old adds dels : List Stmt) : List Stmt :=
  dels.foldl removeOneOccurrence (old ++ adds)

def c1CexStmt : Stmt :=
  ⟨Term.namedNode "https://s", Term.namedNode "https://p",
    Term.namedNode "https://o", Term.namedNode "https://doc"⟩

/-- A saved document whose single triple `t` is also both the staged
addition and the staged deletion of its one subject. -/
def c1CexDoc : V3.TripleDocument :=
  ⟨"https://doc", [c1CexStmt], ⟨none, none, true⟩,
    [⟨"https://doc", [c1CexStmt], [c1CexStmt]⟩]⟩

/-- C1 counterexample: at `c1CexDoc` the save succeeds with an *empty* new
statement sequence — the filter removes both structurally-equal occurrences
of `t` — while the claim's multiset difference (one occurrence removed per
staged deletion) yields `[t]`. -/
theorem save_multiset_difference_cex :
    V3.save c1CexDoc (.error "unused") (.ok ()) =
      (Except.ok (V3.TripleDocument.mk "https://doc" [] ⟨none, none, true⟩ []), c1CexDoc) ∧
    specNewStatements [c1CexStmt] [c1CexStmt] [c1CexStmt] = [c1CexStmt] ∧
    ([] : List Stmt) ≠ [c1CexStmt] := by
  refine ⟨rfl, rfl, ?_⟩
  decide

def c4Stmt : Stmt :=
  ⟨Term.namedNode "https://s", Term.namedNode "https://p",
    Term.namedNode "https://o", Term.namedNode "https://doc"⟩

/-- A saved document with one subject holding a staged addition. -/
def c4Doc : V3.TripleDocument :=
  ⟨"https://doc", [], ⟨none, none, true⟩, [⟨"https://doc", [], [c4Stmt]⟩]⟩

/-- C4: when the transport collaborator that `save` uses fails (update for a
document that exists on the Pod, create otherwise), `save` propagates
exactly that error, produces no new document snapshot, and the original
document is returned unchanged — same reference, same statement sequence,
same metadata, and every subject's pending buffers intact — so the caller
can retry `save` on it. -/
theorem save_transport_failure_frame (doc : V3.TripleDocument)
    (createResp : Except String V3.CreateResponse) (updateResp : Except String Unit)
    (e : String)
    (h : (doc.metadata.existsOnPod = true ∧ updateResp = .error e) ∨
      (doc.metadata.existsOnPod = false ∧ createResp = .error e)) :
    V3.save doc createResp updateResp = (.error e, doc) := by
  unfold V3.save
  rcases h with ⟨hpod, rfl⟩ | ⟨hpod, rfl⟩
  · rw [hpod]
    simp
  · rw [hpod]
    simp

/-- Witness for C4: an update failing with "HTTP 500" leaves `c4Doc`
untouched, staged addition included. -/
theorem save_transport_failure_frame_witness :
    V3.save c4Doc (.ok ⟨none, none⟩) (.error "HTTP 500") = (.error "HTTP 500", c4Doc) :=
  save_transport_failure_frame c4Doc (.ok ⟨none, none⟩) (.error "HTTP 500") "HTTP 500"
    (Or.inl ⟨rfl, rfl⟩)

/-- C5 amended: `save` never mutates the original document's reference,
statement sequence or subject map, and a save of a document that already
exists on the Pod mutates nothing at all on it; a successful save returns a
freshly instantiated snapshot with an empty subject map.  (What the
counterexample forces out of the original claim: a successful save of a
*not-yet-remote* document updates the shared metadata — ACL reference,
WebSocket reference, `existsOnPod` — observably on the original
instance.) -/
theorem save_original_frame (doc : V3.TripleDocument)
    (createResp : Except String V3.CreateResponse) (updateResp : Except String Unit)
    (newDoc oldDoc : V3.TripleDocument)
    (h : V3.save doc createResp updateResp = (.ok newDoc, oldDoc)) :
    oldDoc.documentRef = doc.documentRef ∧ oldDoc.triples = doc.triples ∧
    oldDoc.accessedSubjects = doc.accessedSubjects ∧
    (doc.metadata.existsOnPod = true → oldDoc = doc) ∧
    newDoc.accessedSubjects = [] := by
  unfold V3.save at h
  split at h
  · rename_i hcond
    match createResp, h with
    | .error e, h => simp at h
    | .ok r, h =>
      rw [Prod.mk.injEq, Except.ok.injEq] at h
      refine ⟨by rw [← h.2], by rw [← h.2], by rw [← h.2], ?_, by rw [← h.1]⟩
      intro hpod
      rw [hpod] at hcond
      simp at hcond
  · match updateResp, h with
    | .error e, h => simp at h
    | .ok r, h =>
      rw [Prod.mk.injEq, Except.ok.injEq] at h
      exact ⟨by rw [← h.2], by rw [← h.2], by rw [← h.2], fun _ => h.2.symm, by rw [← h.1]⟩

def c5Stmt : Stmt :=
  ⟨Term.namedNode "https://s", Term.namedNode "https://p",
    Term.namedNode "https://o", Term.namedNode "https://doc"⟩

/-- A document that already exists on the Pod, with one staged addition. -/
def c5Doc : V3.TripleDocument :=
  ⟨"https://doc", [c5Stmt], ⟨some "https://doc.acl", none, true⟩,
    [⟨"https://doc", [], [c5Stmt]⟩]⟩

/-- Witness for the amended C5: a successful update-path save of `c5Doc`
leaves the original document entirely unchanged and returns a fresh
snapshot. -/
theorem save_original_frame_witness :
    c5Doc.documentRef = c5Doc.documentRef ∧ c5Doc.triples = c5Doc.triples ∧
    c5Doc.accessedSubjects = c5Doc.accessedSubjects ∧
    (c5Doc.metadata.existsOnPod = true → c5Doc = c5Doc) ∧
    (V3.TripleDocument.mk "https://doc" [c5Stmt, c5Stmt]
      ⟨some "https://doc.acl", none, true⟩ []).accessedSubjects = [] :=
  save_original_frame c5Doc (.error "unused") (.ok ())
    (V3.TripleDocument.mk "https://doc" [c5Stmt, c5Stmt]
      ⟨some "https://doc.acl", none, true⟩ [])
    c5Doc rfl

/-- The not-yet-remote document of the C5 counterexample. -/
def c5CexDoc : V3.TripleDocument := V3.createDocument "https://x.com/doc"

/-- C5 counterexample: a successful create-path save of the not-yet-remote
`c5CexDoc` observably mutates the document it was called on: its ACL
reference, live-update (WebSocket) reference and `existsOnPod` flag all
change, because `save` writes into the shared `metadata` object. -/
theorem save_mutates_metadata_cex :
    c5CexDoc.metadata = ⟨none, none, false⟩ ∧
    (V3.save c5CexDoc (.ok ⟨some "https://x.com/doc.acl", some "wss://x.com"⟩)
        (.error "unused")).2.metadata =
      ⟨some "https://x.com/doc.acl", some "wss://x.com", true⟩ ∧
    (⟨some "https://x.com/doc.acl", some "wss://x.com", true⟩ : V3.Metadata) ≠
      ⟨none, none, false⟩ := by
  refine ⟨rfl, rfl, ?_⟩
  decide

def c2Stmt : Stmt :=
  ⟨Term.namedNode "https://s", Term.namedNode "https://p",
    Term.namedNode "https://o", Term.namedNode "https://doc"⟩

/-- A saved document whose single subject has one staged (pending)
addition. -/
def c2Doc : V3.TripleDocument :=
  ⟨"https://doc", [], ⟨none, none, true⟩, [⟨"https://doc", [], [c2Stmt]⟩]⟩

/-- C2: part_001's `save` completes a successful remote write for `c2Doc`'s
subject (the update succeeds and the staged addition is in the new
snapshot), yet the subject's pending buffers on the document `save` was
called on are *not* cleared — `save` never invokes any subject's `onSave`,
in contradiction with spec §4.4 step 5, with `onSave`'s own doc comment in
`src/subject.ts`, and with the behaviour of part_000's `save`. -/
theorem save_success_buffers_uncleared :
    (V3.save c2Doc (.error "unused") (.ok ())).1 =
      Except.ok (V3.TripleDocument.mk "https://doc" [c2Stmt] ⟨none, none, true⟩ []) ∧
    (V3.save c2Doc (.error "unused") (.ok ())).2 = c2Doc ∧
    c2Doc.accessedSubjects.map (fun s => s.pendingAdditions) = [[c2Stmt]] ∧
    ([[c2Stmt]] : List (List Stmt)) ≠ [[]] := by
  refine ⟨rfl, rfl, rfl, ?_⟩
  decide
